import Mathlib

/-!
Verification of the `kit` package (a small convenience layer over Go's
`net/http`) against its specification.

Modelling choices (a shallow embedding of `src/kit/kit.go`):
* A response sink (`http.ResponseWriter`) is observed through the trace of
  effects performed on it (`Effect`): status writes, header mutations, body
  writes, and, for `slog.Warn`, log lines.  The only other observable of a
  sink is whether its `Write` rejects with an error, recorded in
  `ResponseWriter.writeErr`.
* Go `error` values are their message strings (`Err`); `err.Error()` is the
  identity.
* The process-wide mutable variable `errorHandler` is threaded explicitly:
  every function reading it takes the current policy value as a parameter.
  A Go function variable may be `nil`, hence `Option ErrorHandlerFunc`.
* `Kit.Redirect` recurses into itself on the non-HTMX branch, so it is
  embedded with explicit fuel: `none` means the call has not terminated
  within `fuel` unfoldings (for every fuel, as proved below, on that branch).
-/

/-- Observable effect performed on the response sink / process log.
`writeHeader` is `ResponseWriter.WriteHeader`, `setHeader` is
`Header().Set`, `write` is `ResponseWriter.Write` (payload as byte values),
`logWarn` is `slog.Warn`. -/
inductive Effect where
  | writeHeader (status : Nat)
  | setHeader (name value : String)
  | write (body : List Nat)
  | logWarn (msg : String)
deriving DecidableEq, Repr

/-- Go `error` values, identified with their message (`Error()` string). -/
abbrev Err := String

/-- UTF-8 encoding of one character, as byte values (Go's `[]byte(string)`
conversion applied to one rune). -/
def utf8Bytes (c : Char) : List Nat :=
  let n := c.toNat
  if n < 128 then [n]
  else if n < 2048 then [192 + n / 64, 128 + n % 64]
  else if n < 65536 then [224 + n / 4096, 128 + (n / 64) % 64, 128 + n % 64]
  else [240 + n / 262144, 128 + (n / 4096) % 64, 128 + (n / 64) % 64, 128 + n % 64]

/-- Go's `[]byte(s)` conversion: the UTF-8 bytes of a string. -/
def strBytes (s : String) : List Nat :=
  s.data.foldr (fun c acc => utf8Bytes c ++ acc) []

/-- An `Auth` value: the interface has the single method `Check() bool`,
modelled by the field `check`; `id` distinguishes distinct implementations
or instances carrying the same boolean, so that equality of `Auth` values
is value identity. -/
structure Auth where
  id : Nat
  check : Bool
deriving DecidableEq, Repr

/-- `DefaultAuth{}`: the deny-default implementation, whose `Check` returns
`false`. -/
def DefaultAuth : Auth := { id := 0, check := false }

/-- A value stored in the request context under `AuthKey{}`.  The context is
untyped in Go, so the stored value may fail the `.(Auth)` type assertion:
`otherVal` stands for any value that is not an `Auth`. -/
inductive CtxVal where
  | authVal (a : Auth)
  | otherVal (n : Nat)
deriving DecidableEq, Repr

/-- Inbound request: the fields of `*http.Request` the package reads.
`ctxAuth` is the value of `r.Context().Value(AuthKey\x7b\x7d)` (`none` when
no value was attached under that key). -/
structure Request where
  path : String
  headers : List (String × String)
  ctxAuth : Option CtxVal
deriving DecidableEq, Repr

/-- Response sink: writes are observed through the `Effect` trace; the one
behavioural parameter is whether `Write` rejects (e.g. client
disconnected), in which case it returns this error. -/
structure ResponseWriter where
  writeErr : Option Err
deriving DecidableEq, Repr

/-- The per-request context object bundling the response sink and the
inbound request. -/
structure Kit where
  Response : ResponseWriter
  Request : Request
deriving DecidableEq, Repr

/-- `http.Header.Get`: the value of the named header, `""` when absent. -/
def headerGet (hs : List (String × String)) (name : String) : String :=
  match hs.find? (fun p => p.fst == name) with
  | some p => p.snd
  | none => ""

/-- `(kit *Kit) Auth()`: read the `Auth` from the request context; on a
missing value or failed type assertion, warn and return `DefaultAuth\x7b\x7d`.
Returns the emitted effects (the possible warning) with the result; the
result type is total: the accessor cannot fail. -/
def Kit.Auth (kit : Kit) : List Effect × Auth :=
  match kit.Request.ctxAuth with
  | some (CtxVal.authVal a) => ([], a)
  | _ => ([Effect.logWarn "kit authentication not set"], DefaultAuth)

/-- `(kit *Kit) Redirect(status, url)`: on the HTMX branch (`HX-Request`
header non-empty) set `HX-Redirect` and write status 303
(`http.StatusSeeOther`), returning `nil`; otherwise the source calls itself
with identical arguments.  General recursion is embedded with fuel: `none`
means no result within `fuel` unfoldings. -/
def Kit.Redirect (fuel : Nat) (kit : Kit) (status : Nat) (url : String) :
    Option (List Effect × Option Err) :=
  match fuel with
  | 0 => none
  | fuel + 1 =>
    if 0 < (headerGet kit.Request.headers "HX-Request").length then
      some ([Effect.setHeader "HX-Redirect" url, Effect.writeHeader 303], none)
    else
      Kit.Redirect fuel kit status url

/-- `(kit *Kit) Text(status, msg)`: write the status, set `Content-Type` to
`text/plain`, write the message bytes; the result is the `Write` error. -/
def Kit.Text (kit : Kit) (status : Nat) (msg : String) :
    List Effect × Option Err :=
  ([Effect.writeHeader status,
    Effect.setHeader "Content-Type" "text/plain",
    Effect.write (strBytes msg)], kit.Response.writeErr)

/-- `(kit *Kit) Bytes(status, b)`: write the status, set `Content-Type` to
`text/plain`, write the raw bytes; the result is the `Write` error. -/
def Kit.Bytes (kit : Kit) (status : Nat) (b : List Nat) :
    List Effect × Option Err :=
  ([Effect.writeHeader status,
    Effect.setHeader "Content-Type" "text/plain",
    Effect.write b], kit.Response.writeErr)

/-- JSON values passed to `Kit.JSON` (the fragment of Go's `any` used by
this development): numbers, strings and objects. -/
inductive JVal where
  | jnum (n : Int)
  | jstr (s : String)
  | jobj (fields : List (String × JVal))

/-- The double-quote character, as a string. -/
def quoteS : String := String.singleton (Char.ofNat 34)

/-- The opening-brace character, as a string. -/
def lbraceS : String := String.singleton (Char.ofNat 123)

/-- The closing-brace character, as a string. -/
def rbraceS : String := String.singleton (Char.ofNat 125)

/-- The backslash character, as a string. -/
def backslashS : String := String.singleton (Char.ofNat 92)

/-- Escaping of one character inside a JSON string literal (double quote
and backslash get a backslash prefix). -/
def escapeChar (c : Char) : String :=
  if c.toNat == 34 || c.toNat == 92 then backslashS ++ String.singleton c
  else String.singleton c

/-- A JSON string literal for `s`. -/
def encodeString (s : String) : String :=
  quoteS ++ s.data.foldr (fun c acc => escapeChar c ++ acc) "" ++ quoteS

mutual

/-- Model of the standard library's JSON serialisation
(`encoding/json`), on the `JVal` fragment: the external collaborator the
spec calls "serialize the value to the body". -/
def encodeJVal : JVal → String
  | .jnum n => toString n
  | .jstr s => encodeString s
  | .jobj fs => lbraceS ++ encodeFields fs ++ rbraceS

/-- Comma-separated `"key":value` pairs of a JSON object body. -/
def encodeFields : List (String × JVal) → String
  | [] => ""
  | [(k, v)] => encodeString k ++ ":" ++ encodeJVal v
  | (k, v) :: f :: rest =>
    encodeString k ++ ":" ++ encodeJVal v ++ "," ++ encodeFields (f :: rest)

end

/-- `(kit *Kit) JSON(status, v)`: write the status, set `Content-Type` to
`application/json`, and let `json.NewEncoder(kit.Response).Encode(v)`
serialise the value to the body (the encoder appends a newline).  Encoding
a `JVal` never fails, so the returned error is the sink's write error. -/
def Kit.JSON (kit : Kit) (status : Nat) (v : JVal) :
    List Effect × Option Err :=
  ([Effect.writeHeader status,
    Effect.setHeader "Content-Type" "application/json",
    Effect.write (strBytes (encodeJVal v ++ "\n"))], kit.Response.writeErr)

/-- Whitespace recognised by the JSON reader. -/
def isWS (c : Char) : Bool :=
  c.toNat == 32 || c.toNat == 10 || c.toNat == 9 || c.toNat == 13

/-- Drop leading JSON whitespace. -/
def skipWS : List Char → List Char
  | [] => []
  | c :: rest => if isWS c then skipWS rest else c :: rest

/-- ASCII digit test. -/
def isDigit (c : Char) : Bool := 48 ≤ c.toNat && c.toNat ≤ 57

/-- Split the longest leading run of digits from the rest. -/
def spanDigits : List Char → List Char × List Char
  | [] => ([], [])
  | c :: rest =>
    if isDigit c then
      let (ds, r) := spanDigits rest
      (c :: ds, r)
    else ([], c :: rest)

/-- Numeric value of a digit run. -/
def digitsToNat (ds : List Char) : Nat :=
  ds.foldl (fun a c => a * 10 + (c.toNat - 48)) 0

/-- Read a JSON string literal body up to the closing quote, undoing the
backslash escapes written by `escapeChar`. -/
def parseStringBody : List Char → Option (String × List Char)
  | [] => none
  | c :: rest =>
    if c.toNat == 34 then some ("", rest)
    else if c.toNat == 92 then
      match rest with
      | [] => none
      | e :: rest2 =>
        match parseStringBody rest2 with
        | some (s, r) => some (String.singleton e ++ s, r)
        | none => none
    else
      match parseStringBody rest with
      | some (s, r) => some (String.singleton c ++ s, r)
      | none => none

mutual

/-- Model of the standard library's JSON deserialisation on the `JVal`
fragment, fuelled by the remaining nesting depth; inverse of
`encodeJVal` on encoder output. -/
def parseJ (fuel : Nat) (cs : List Char) : Option (JVal × List Char) :=
  match fuel with
  | 0 => none
  | fuel + 1 =>
    match skipWS cs with
    | [] => none
    | c :: rest =>
      if c.toNat == 34 then
        match parseStringBody rest with
        | some (s, r) => some (JVal.jstr s, r)
        | none => none
      else if c.toNat == 123 then
        match skipWS rest with
        | [] => none
        | c2 :: rest2 =>
          if c2.toNat == 125 then some (JVal.jobj [], rest2)
          else
            match parseFields fuel (c2 :: rest2) with
            | some (fs, r) => some (JVal.jobj fs, r)
            | none => none
      else if c.toNat == 45 || isDigit c then
        let neg := c.toNat == 45
        let body := if neg then rest else c :: rest
        match spanDigits body with
        | ([], _) => none
        | (ds, r) =>
          let n : Int := Int.ofNat (digitsToNat ds)
          some (JVal.jnum (if neg then -n else n), r)
      else none

/-- Read the `"key":value` pairs of a JSON object up to the closing
brace. -/
def parseFields (fuel : Nat) (cs : List Char) :
    Option (List (String × JVal) × List Char) :=
  match fuel with
  | 0 => none
  | fuel + 1 =>
    match skipWS cs with
    | [] => none
    | c :: rest =>
      if c.toNat == 34 then
        match parseStringBody rest with
        | none => none
        | some (k, r1) =>
          match skipWS r1 with
          | [] => none
          | c2 :: r2 =>
            if c2.toNat == 58 then
              match parseJ fuel r2 with
              | none => none
              | some (v, r3) =>
                match skipWS r3 with
                | [] => none
                | c3 :: r4 =>
                  if c3.toNat == 44 then
                    match parseFields fuel r4 with
                    | some (fs, r5) => some ((k, v) :: fs, r5)
                    | none => none
                  else if c3.toNat == 125 then some ([(k, v)], r4)
                  else none
            else none
      else none

end

/-- Decode a complete JSON document (trailing whitespace allowed, as the
standard decoder allows the encoder's trailing newline). -/
def decodeJVal (s : String) : Option JVal :=
  match parseJ (s.length + 1) s.data with
  | some (v, rest) => if (skipWS rest).isEmpty then some v else none
  | none => none

/-- `HandlerFunc`: a fallible handler taking the request context object;
it is observed by the effects it performs and the error it returns. -/
abbrev HandlerFunc := Kit → List Effect × Option Err

/-- `ErrorHandlerFunc`: an error policy `(kit, err) → side effects`. -/
abbrev ErrorHandlerFunc := Kit → Err → List Effect

/-- The initial value of the package-level `errorHandler` variable: write
HTTP 500 with the error's message as plain text (`kit.Text(500,
err.Error())`, result discarded). -/
def errorHandler : ErrorHandlerFunc :=
  fun kit err => (Kit.Text kit 500 err).fst

/-- `UseErrorHandler(h)` assigns the package-level `errorHandler` variable.
The embedding threads that variable's current value explicitly, so
registration is modelled as producing the new state; a Go function
variable may be `nil`, hence `Option`. -/
def UseErrorHandler (h : Option ErrorHandlerFunc) : Option ErrorHandlerFunc :=
  h

/-- `Handler(h)`: the adapter turning a fallible `HandlerFunc` into a
standard handler.  `policy` is the current value of the `errorHandler`
variable at invocation time.  It constructs the kit from the writer and
request, runs `h`, and on an error applies the policy when non-nil, else
falls back to `kit.Text(500, err.Error())`.  The result is the complete
effect trace of serving the request. -/
def Handler (policy : Option ErrorHandlerFunc) (h : HandlerFunc)
    (w : ResponseWriter) (r : Request) : List Effect :=
  let kit : Kit := { Response := w, Request := r }
  match h kit with
  | (effs, none) => effs
  | (effs, some err) =>
    match policy with
    | some p => effs ++ p kit err
    | none => effs ++ (Kit.Text kit 500 err).fst

/-- `AuthenticationConfig`: the probe and the redirect target.  `AuthFunc`
returns either an `Auth` value or an error (Go's `(Auth, error)` pair read
only when the error is nil). -/
structure AuthenticationConfig where
  AuthFunc : ResponseWriter → Request → Except Err Auth
  RedirectURL : String

/-- Result of running a middleware-wrapped handler: a terminated run with
its effect trace, or a run that invoked a nil function value (Go panic). -/
inductive RunResult where
  | done (effects : List Effect)
  | panicked
deriving DecidableEq, Repr

/-- `WithAuthentication(config, strict)` applied to a next handler and one
request.  `policy` is the current `errorHandler` value (applied
unconditionally on a probe error — no nil check here, unlike `Handler`);
`next` is the wrapped handler, observed by the effects it performs on the
request it receives; `fuel` bounds the unfolding of the recursive
`Kit.Redirect`, and `none` means the run has not terminated within `fuel`
steps.  On the delegate path the `Auth` result is attached to the request
context under `AuthKey\x7b\x7d` before `next` runs. -/
def WithAuthentication (policy : Option ErrorHandlerFunc)
    (config : AuthenticationConfig) (strict : Bool)
    (next : Request → List Effect) (w : ResponseWriter) (fuel : Nat)
    (r : Request) : Option RunResult :=
  let kit : Kit := { Response := w, Request := r }
  match config.AuthFunc w r with
  | .error err =>
    match policy with
    | some p => some (RunResult.done (p kit err))
    | none => some RunResult.panicked
  | .ok auth =>
    if strict && !auth.check && r.path != config.RedirectURL then
      match Kit.Redirect fuel kit 303 config.RedirectURL with
      | none => none
      | some (effs, _) => some (RunResult.done effs)
    else
      some (RunResult.done
        (next { r with ctxAuth := some (CtxVal.authVal auth) }))

/-- Does an effect write the response status? -/
def isStatusWrite : Effect → Bool
  | Effect.writeHeader _ => true
  | _ => false

/-- Does an effect set the Content-Type header? -/
def isContentTypeSet : Effect → Bool
  | Effect.setHeader n _ => n == "Content-Type"
  | _ => false

/-- A concrete response sink whose writes succeed. -/
def w0 : ResponseWriter := { writeErr := none }

/-- A concrete request: path to the dashboard, no headers, no context
value. -/
def r0 : Request := { path := "/dashboard", headers := [], ctxAuth := none }

/-- A concrete request like `r0` but carrying the HTMX marker header. -/
def rHX : Request :=
  { path := "/dashboard", headers := [("HX-Request", "true")], ctxAuth := none }

/-- A concrete fallible handler that writes nothing and fails. -/
def hBoom : HandlerFunc := fun _ => ([], some "boom")

/-- A concrete wrapped handler that writes status 200. -/
def nextW : Request → List Effect := fun _ => [Effect.writeHeader 200]

/-- Strict-mode configuration whose probe denies without error. -/
def cfgDeny : AuthenticationConfig :=
  { AuthFunc := fun _ _ => Except.ok { id := 1, check := false },
    RedirectURL := "/login" }

/-- Configuration whose probe authenticates. -/
def cfgAuthed : AuthenticationConfig :=
  { AuthFunc := fun _ _ => Except.ok { id := 2, check := true },
    RedirectURL := "/login" }

/-- Configuration whose probe fails. -/
def cfgErr : AuthenticationConfig :=
  { AuthFunc := fun _ _ => Except.error "probe failed",
    RedirectURL := "/login" }

/-- Without the HTMX marker header, `Kit.Redirect` yields no result for
any amount of fuel: the self-call never terminates. -/
theorem redirect_no_hx_none (kit : Kit) (status : Nat) (url : String)
    (h : (headerGet kit.Request.headers "HX-Request").length = 0) :
    ∀ fuel, Kit.Redirect fuel kit status url = none := by
  intro fuel
  induction fuel with
  | zero => rfl
  | succ n ih => simp [Kit.Redirect, h, ih]

/-- C8: for every status and message, `Text` performs exactly the same
sequence of response effects (status write, Content-Type set to
text/plain, body write) and returns the same result as `Bytes` applied to
the byte encoding of the message; `Bytes` is `Text` on raw bytes. -/
theorem text_eq_bytes_of_encoding (kit : Kit) (status : Nat) (msg : String) :
    Kit.Text kit status msg = Kit.Bytes kit status (strBytes msg) := rfl

/-- C4: the default error policy, for any error, writes status 500 and a
body equal to the error's message, with content type text/plain, on the
response sink of the given request context object. -/
theorem default_policy_writes_500_text (kit : Kit) (e : Err) :
    errorHandler kit e =
      [Effect.writeHeader 500,
       Effect.setHeader "Content-Type" "text/plain",
       Effect.write (strBytes e)] := rfl

/-- C9: in each of `JSON`, `Text` and `Bytes`, the first status write sits
at position 0 of the effect trace and the first Content-Type mutation at
position 1: for every invocation the content type is set only after the
status has already been committed. -/
theorem status_written_before_content_type (kit : Kit) (status : Nat)
    (v : JVal) (msg : String) (b : List Nat) :
    ((Kit.JSON kit status v).fst.findIdx isStatusWrite = 0 ∧
      (Kit.JSON kit status v).fst.findIdx isContentTypeSet = 1) ∧
    ((Kit.Text kit status msg).fst.findIdx isStatusWrite = 0 ∧
      (Kit.Text kit status msg).fst.findIdx isContentTypeSet = 1) ∧
    ((Kit.Bytes kit status b).fst.findIdx isStatusWrite = 0 ∧
      (Kit.Bytes kit status b).fst.findIdx isContentTypeSet = 1) :=
  ⟨⟨rfl, rfl⟩, ⟨rfl, rfl⟩, ⟨rfl, rfl⟩⟩

/-- C6: the accessor, on a request context carrying no value under the
private key, or a value that fails the type assertion, logs the diagnostic
warning and returns the deny-default result, whose check is false; its
total result type means it never raises an error and always returns a
usable value. -/
theorem auth_accessor_default (kit : Kit)
    (h : kit.Request.ctxAuth = none ∨
      ∃ n, kit.Request.ctxAuth = some (CtxVal.otherVal n)) :
    Kit.Auth kit =
      ([Effect.logWarn "kit authentication not set"], DefaultAuth) ∧
    DefaultAuth.check = false := by
  refine ⟨?_, rfl⟩
  rcases h with h | ⟨n, h⟩ <;> simp [Kit.Auth, h]

/-- Witness for `auth_accessor_default`: the middleware never ran on `r0`,
so its context carries no value under the key. -/
theorem auth_accessor_default_witness :
    Kit.Auth { Response := w0, Request := r0 } =
      ([Effect.logWarn "kit authentication not set"], DefaultAuth) ∧
    DefaultAuth.check = false :=
  auth_accessor_default { Response := w0, Request := r0 } (Or.inl rfl)

/-- C7: writing the one-field object (key a, value 1) at status 200
produces a Content-Type mutation to application/json and body bytes that
decode back to the same value. -/
theorem json_round_trip (kit : Kit) :
    Kit.JSON kit 200 (JVal.jobj [("a", JVal.jnum 1)]) =
      ([Effect.writeHeader 200,
        Effect.setHeader "Content-Type" "application/json",
        Effect.write
          (strBytes (encodeJVal (JVal.jobj [("a", JVal.jnum 1)]) ++ "\n"))],
       kit.Response.writeErr) ∧
    decodeJVal (encodeJVal (JVal.jobj [("a", JVal.jnum 1)]) ++ "\n") =
      some (JVal.jobj [("a", JVal.jnum 1)]) :=
  ⟨rfl, by rfl⟩

/-- C1: when the wrapped handler returns error `err`, the adapter applies
the currently-registered policy exactly once, to the kit it constructed
and to that same error (the full trace is the handler's own effects
followed by one application of the policy); and when the handler returns
no error, the adapter performs no further response writes of its own,
whatever the registered policy. -/
theorem handler_applies_policy_once (p : ErrorHandlerFunc) (h : HandlerFunc)
    (w : ResponseWriter) (r : Request) :
    (∀ effs err, h { Response := w, Request := r } = (effs, some err) →
      Handler (some p) h w r =
        effs ++ p { Response := w, Request := r } err) ∧
    (∀ (policy : Option ErrorHandlerFunc) effs,
      h { Response := w, Request := r } = (effs, none) →
      Handler policy h w r = effs) := by
  constructor
  · intro effs err heq
    simp [Handler, heq]
  · intro policy effs heq
    simp [Handler, heq]

/-- Witness for `handler_applies_policy_once`: a failing handler under the
default policy, and a succeeding handler under no policy. -/
theorem handler_applies_policy_once_witness :
    Handler (some errorHandler) hBoom w0 r0 =
      [Effect.writeHeader 500,
       Effect.setHeader "Content-Type" "text/plain",
       Effect.write (strBytes "boom")] ∧
    Handler none (fun _ => ([Effect.writeHeader 200], none)) w0 r0 =
      [Effect.writeHeader 200] :=
  ⟨(handler_applies_policy_once errorHandler hBoom w0 r0).1 [] "boom" rfl,
   (handler_applies_policy_once errorHandler
      (fun _ => ([Effect.writeHeader 200], none)) w0 r0).2 none
      [Effect.writeHeader 200] rfl⟩

/-- C3: on a request carrying a non-empty HX-Request header, `Redirect`
sets the HX-Redirect header to the url, writes status 303 and returns no
error; on a request without the marker, each unfolding calls itself with
identical arguments, and the call yields no result for any fuel: it does
not terminate. -/
theorem redirect_hx_or_diverges (kit : Kit) (status : Nat) (url : String) :
    (0 < (headerGet kit.Request.headers "HX-Request").length →
      ∀ fuel, Kit.Redirect (fuel + 1) kit status url =
        some ([Effect.setHeader "HX-Redirect" url,
               Effect.writeHeader 303], none)) ∧
    ((headerGet kit.Request.headers "HX-Request").length = 0 →
      (∀ fuel, Kit.Redirect (fuel + 1) kit status url =
        Kit.Redirect fuel kit status url) ∧
      ∀ fuel, Kit.Redirect fuel kit status url = none) := by
  constructor
  · intro h fuel
    simp [Kit.Redirect, h]
  · intro h
    exact ⟨fun fuel => by simp [Kit.Redirect, h],
           redirect_no_hx_none kit status url h⟩

/-- Witness for `redirect_hx_or_diverges`: the HTMX request gets the 303
response at fuel 1; the plain request has no result at fuel 7. -/
theorem redirect_hx_or_diverges_witness :
    Kit.Redirect 1 { Response := w0, Request := rHX } 303 "/login" =
      some ([Effect.setHeader "HX-Redirect" "/login",
             Effect.writeHeader 303], none) ∧
    Kit.Redirect 7 { Response := w0, Request := r0 } 303 "/login" = none :=
  ⟨(redirect_hx_or_diverges { Response := w0, Request := rHX } 303
      "/login").1 (by decide) 0,
   (redirect_hx_or_diverges { Response := w0, Request := r0 } 303
      "/login").2 (by decide) |>.2 7⟩

/-- C5: on a probe error the middleware applies the current policy to a
freshly constructed kit bound to the current writer and request, and to
that error, and the run ends there: the result does not depend on the
wrapped handler (it is never invoked), so no authentication result is
attached to any context the handler could see. -/
theorem withAuthentication_probe_error (p : ErrorHandlerFunc)
    (cfg : AuthenticationConfig) (strict : Bool)
    (next : Request → List Effect) (w : ResponseWriter) (fuel : Nat)
    (r : Request) (err : Err)
    (heq : cfg.AuthFunc w r = Except.error err) :
    WithAuthentication (some p) cfg strict next w fuel r =
      some (RunResult.done (p { Response := w, Request := r } err)) := by
  simp [WithAuthentication, heq]

/-- Witness for `withAuthentication_probe_error` at the failing probe. -/
theorem withAuthentication_probe_error_witness :
    WithAuthentication (some errorHandler) cfgErr true nextW w0 3 r0 =
      some (RunResult.done
        [Effect.writeHeader 500,
         Effect.setHeader "Content-Type" "text/plain",
         Effect.write (strBytes "probe failed")]) :=
  withAuthentication_probe_error errorHandler cfgErr true nextW w0 3 r0
    "probe failed" rfl

/-- C10: with the policy replaced by nil via the registration setter, the
adapter still falls back to writing 500 with the error's message (its nil
check), while the middleware's probe-error path applies the policy
unconditionally: under a nil policy a probe failure invokes a nil
function, with no fallback (the run panics). -/
theorem nil_policy_fallback_only_in_adapter :
    (∀ (h : HandlerFunc) (w : ResponseWriter) (r : Request) effs err,
      h { Response := w, Request := r } = (effs, some err) →
      Handler (UseErrorHandler none) h w r =
        effs ++ [Effect.writeHeader 500,
                 Effect.setHeader "Content-Type" "text/plain",
                 Effect.write (strBytes err)]) ∧
    (∀ (cfg : AuthenticationConfig) (strict : Bool)
        (next : Request → List Effect) (w : ResponseWriter) (fuel : Nat)
        (r : Request) (err : Err),
      cfg.AuthFunc w r = Except.error err →
      WithAuthentication (UseErrorHandler none) cfg strict next w fuel r =
        some RunResult.panicked) := by
  constructor
  · intro h w r effs err heq
    simp [Handler, UseErrorHandler, heq, Kit.Text]
  · intro cfg strict next w fuel r err heq
    simp [WithAuthentication, UseErrorHandler, heq]

/-- Witness for `nil_policy_fallback_only_in_adapter`: the failing handler
still gets a 500 from the adapter; the failing probe panics the
middleware. -/
theorem nil_policy_fallback_only_in_adapter_witness :
    Handler (UseErrorHandler none) hBoom w0 r0 =
      [Effect.writeHeader 500,
       Effect.setHeader "Content-Type" "text/plain",
       Effect.write (strBytes "boom")] ∧
    WithAuthentication (UseErrorHandler none) cfgErr true nextW w0 3 r0 =
      some RunResult.panicked :=
  ⟨nil_policy_fallback_only_in_adapter.1 hBoom w0 r0 [] "boom" rfl,
   nil_policy_fallback_only_in_adapter.2 cfgErr true nextW w0 3 r0
     "probe failed" rfl⟩

/-- C2 (the code evaluated against the claim): in strict mode after a
successful probe, (1) when the result reports not-authenticated, the path
differs from the redirect target and the request lacks the HX-Request
marker, the run yields no result for any fuel: the middleware diverges
inside `Redirect` and never issues the claimed redirect (and the wrapped
handler is never invoked — the outcome is independent of it); (2) when the
result reports authenticated, or the path equals the target, there is no
redirect: the result is attached to the request context under the private
key and the wrapped handler runs on the extended request, on which the
accessor returns that same result with no warning; (3) when the marker is
present, the redirect that is issued is the HX-Redirect header aimed at
the configured target plus status 303, and the wrapped handler is never
invoked. -/
theorem withAuthentication_strict_behavior :
    (∀ (p : ErrorHandlerFunc) (cfg : AuthenticationConfig)
        (next : Request → List Effect) (w : ResponseWriter) (r : Request)
        (auth : Auth) (fuel : Nat),
      cfg.AuthFunc w r = Except.ok auth →
      auth.check = false →
      r.path ≠ cfg.RedirectURL →
      (headerGet r.headers "HX-Request").length = 0 →
      WithAuthentication (some p) cfg true next w fuel r = none) ∧
    (∀ (p : ErrorHandlerFunc) (cfg : AuthenticationConfig)
        (next : Request → List Effect) (w : ResponseWriter) (r : Request)
        (auth : Auth) (fuel : Nat),
      cfg.AuthFunc w r = Except.ok auth →
      (auth.check = true ∨ r.path = cfg.RedirectURL) →
      WithAuthentication (some p) cfg true next w fuel r =
        some (RunResult.done
          (next { r with ctxAuth := some (CtxVal.authVal auth) })) ∧
      ∀ w' : ResponseWriter,
        Kit.Auth
          { Response := w',
            Request := { r with ctxAuth := some (CtxVal.authVal auth) } } =
          ([], auth)) ∧
    (∀ (p : ErrorHandlerFunc) (cfg : AuthenticationConfig)
        (next : Request → List Effect) (w : ResponseWriter) (r : Request)
        (auth : Auth) (fuel : Nat),
      cfg.AuthFunc w r = Except.ok auth →
      auth.check = false →
      r.path ≠ cfg.RedirectURL →
      0 < (headerGet r.headers "HX-Request").length →
      WithAuthentication (some p) cfg true next w (fuel + 1) r =
        some (RunResult.done
          [Effect.setHeader "HX-Redirect" cfg.RedirectURL,
           Effect.writeHeader 303])) := by
  refine ⟨?_, ?_, ?_⟩
  · intro p cfg next w r auth fuel hok hcheck hpath hhx
    have hdiv := redirect_no_hx_none { Response := w, Request := r } 303
      cfg.RedirectURL hhx fuel
    simp [WithAuthentication, hok, hcheck, bne_iff_ne, hpath, hdiv]
  · intro p cfg next w r auth fuel hok hor
    refine ⟨?_, fun w' => by simp [Kit.Auth]⟩
    rcases hor with hc | hp
    · simp [WithAuthentication, hok, hc]
    · simp [WithAuthentication, hok, hp]
  · intro p cfg next w r auth fuel hok hcheck hpath hhx
    simp [WithAuthentication, hok, hcheck, bne_iff_ne, hpath,
      Kit.Redirect, hhx]

/-- Witness for `withAuthentication_strict_behavior`: the three paths at
concrete requests — the plain unauthenticated request yields no result at
fuel 7, the authenticated request delegates and the accessor sees its
result, the HTMX unauthenticated request gets the HX redirect. -/
theorem withAuthentication_strict_behavior_witness :
    WithAuthentication (some errorHandler) cfgDeny true nextW w0 7 r0 =
      none ∧
    (WithAuthentication (some errorHandler) cfgAuthed true nextW w0 3 r0 =
      some (RunResult.done [Effect.writeHeader 200]) ∧
     Kit.Auth
       { Response := w0,
         Request :=
           { r0 with ctxAuth := some (CtxVal.authVal { id := 2, check := true }) } } =
       ([], { id := 2, check := true })) ∧
    WithAuthentication (some errorHandler) cfgDeny true nextW w0 (4 + 1)
        rHX =
      some (RunResult.done
        [Effect.setHeader "HX-Redirect" "/login",
         Effect.writeHeader 303]) :=
  ⟨withAuthentication_strict_behavior.1 errorHandler cfgDeny nextW w0 r0
      { id := 1, check := false } 7 rfl rfl (by decide) rfl,
   ⟨(withAuthentication_strict_behavior.2.1 errorHandler cfgAuthed nextW w0
       r0 { id := 2, check := true } 3 rfl (Or.inl rfl)).1,
    (withAuthentication_strict_behavior.2.1 errorHandler cfgAuthed nextW w0
       r0 { id := 2, check := true } 3 rfl (Or.inl rfl)).2 w0⟩,
   withAuthentication_strict_behavior.2.2 errorHandler cfgDeny nextW w0 rHX
     { id := 1, check := false } 4 rfl rfl (by decide) (by decide)⟩
